import Mathlib

/-!
GTSearch chat component (`src/App.js`).

A shallow embedding of `SearchComponent`: its three `useState` cells, the
`handleSearch` callback (split at its single `await` boundary), the
`onChange` handler of the text field, the `disabled` expression of the
search button and the per-paragraph rendering rule of bot bubbles.

JavaScript strings are modelled as lists of characters.  Every character
the code inspects (the separator `\n`, the markers `-` and `*`, and the
white space removed by `String.prototype.trim`) lies in the Basic
Multilingual Plane, so working with code points instead of UTF-16 code
units does not change any of the operations below.
-/

namespace GTSearch

/-! ## JavaScript string primitives used by the component -/

/-- A JavaScript string value. -/
abbrev JSString := List Char

/-- Characters removed by `String.prototype.trim`: ECMAScript `WhiteSpace`
(TAB, VT, FF, ZWNBSP and the Unicode space separators) together with
`LineTerminator` (LF, CR, LS, PS). -/
def isTrimChar (c : Char) : Bool :=
  let n := c.toNat
  n == 0x09 || n == 0x0A || n == 0x0B || n == 0x0C || n == 0x0D ||
  n == 0x20 || n == 0xA0 || n == 0x1680 ||
  (0x2000 ≤ n && n ≤ 0x200A) ||
  n == 0x2028 || n == 0x2029 || n == 0x202F || n == 0x205F ||
  n == 0x3000 || n == 0xFEFF

/-- The method `String.prototype.trim`: strips white space from both ends. -/
def trim (s : JSString) : JSString :=
  ((s.dropWhile isTrimChar).reverse.dropWhile isTrimChar).reverse

/-- The call `s.split(sep)` for a one-character separator: the segments
between consecutive occurrences of `sep`, so that `n` occurrences give
`n + 1` segments and the empty string gives one empty segment. -/
def split (sep : Char) : JSString → List JSString
  | [] => [[]]
  | c :: cs =>
    if c = sep then [] :: split sep cs
    else
      match split sep cs with
      | [] => [[c]]
      | seg :: rest => (c :: seg) :: rest

/-- The call `s.startsWith(c)` for a one-character search string. -/
def startsWith (s : JSString) (c : Char) : Bool :=
  match s with
  | [] => false
  | d :: _ => d == c

/-- The call `s.substring(1)`: everything after the first character. -/
def substring1 (s : JSString) : JSString := s.drop 1

/-- JavaScript `ToBoolean` on a string: only the empty string is falsy. -/
def truthy (s : JSString) : Bool := !s.isEmpty

/-! ## Data model -/

/-- An entry of the `chat` array: `{ type: 'user', text }` carries one
string, `{ type: 'bot', text }` carries an array of paragraph strings. -/
inductive Message where
  | user (text : JSString)
  | bot (text : List JSString)
  deriving DecidableEq, Repr

/-- The test `message.type === 'user'` of the render function. -/
def Message.isUser : Message → Bool
  | .user _ => true
  | .bot _ => false

/-- The three `useState` cells of `SearchComponent`. -/
structure State where
  searchQuery : JSString
  chat : List Message
  isLoading : Bool
  deriving DecidableEq, Repr

/-- The state after mounting: `useState('')`, `useState([])`,
`useState(false)`. -/
def State.init : State := { searchQuery := [], chat := [], isLoading := false }

/-- The setter `setSearchQuery(v)`. -/
def setSearchQuery (v : JSString) (s : State) : State := { s with searchQuery := v }

/-- The setter `setChat(f)` called with an updater function. -/
def setChat (f : List Message → List Message) (s : State) : State :=
  { s with chat := f s.chat }

/-- The setter `setIsLoading(b)`. -/
def setIsLoading (b : Bool) (s : State) : State := { s with isLoading := b }

/-- The request handed to `fetch`: the literal URL, the method, the
`Content-Type` header, and the value stored under `search_query` in the
object given to `JSON.stringify`. -/
structure Request where
  url : String
  method : String
  contentType : String
  search_query : JSString
  deriving DecidableEq, Repr

/-- What the code can observe of a `Response`: the `ok` flag and the
settlement of `response.text()` (a body, or a rejection reason). -/
structure Response where
  ok : Bool
  text : Except String JSString

/-- Settlement of the promise returned by `fetch`. -/
inductive FetchResult where
  | rejected (reason : String)
  | resolved (response : Response)

/-! ## `handleSearch` -/

/-- The fixed text shown when the request fails. -/
def errorText : JSString := "Sorry, there was an error processing your request.".toList

/-- The expression `textContent.split('\n').filter(paragraph => paragraph.trim() !== '')`. -/
def paragraphs (textContent : JSString) : List JSString :=
  (split '\n' textContent).filter (fun paragraph => trim paragraph != [])

/-- A block of statements run on the component state: it either completes
normally or throws, and in both cases leaves a state behind. -/
abbrev Block := State → Except String Unit × State

/-- The statement `try { t } catch (error) { c } finally { f }`. -/
def tryCatchFinally (t : Block) (c : String → Block) (f : Block) : Block := fun s =>
  let (r1, s1) := t s
  let (r2, s2) :=
    match r1 with
    | .ok () => (Except.ok (), s1)
    | .error e => c e s1
  let (r3, s3) := f s2
  match r3 with
  | .ok () => (r2, s3)
  | .error e => (.error e, s3)

/-- The part of `handleSearch` that runs before the `await` on `fetch`:
the user message is appended, the loading flag is raised and the request
is issued.  Returns the state and the request. -/
def handleSearchStart (s : State) : State × Request :=
  let s1 := setChat (fun prevChat => prevChat ++ [Message.user s.searchQuery]) s
  let s2 := setIsLoading true s1
  (s2, { url := "https://tsearch-c7q4.onrender.com/tsearch/search",
         method := "POST",
         contentType := "application/json",
         search_query := s.searchQuery })

/-- The rest of the `try` block, run when `fetch` has settled. -/
def tryBlock (r : FetchResult) : Block := fun s =>
  match r with
  | .rejected reason => (.error reason, s)
  | .resolved response =>
    if !response.ok then (.error "Response not OK", s)
    else
      match response.text with
      | .error reason => (.error reason, s)
      | .ok textContent =>
        (.ok (), setChat (fun prevChat => prevChat ++ [Message.bot (paragraphs textContent)]) s)

/-- The `catch` block (the `console.error` call leaves the state alone). -/
def catchBlock (_error : String) : Block := fun s =>
  (.ok (), setChat (fun prevChat => prevChat ++ [Message.bot [errorText]]) s)

/-- The `finally` block. -/
def finallyBlock : Block := fun s =>
  (.ok (), setSearchQuery [] (setIsLoading false s))

/-- The part of `handleSearch` that runs once `fetch` has settled with `r`,
on the state the component has at that moment. -/
def handleSearchResume (r : FetchResult) : Block :=
  tryCatchFinally (tryBlock r) catchBlock finallyBlock

/-- The paragraph array of the bot message that the `try` and `catch`
blocks append for a settlement: the paragraphs of the body when the
response is ok and its text could be read, the error text otherwise. -/
def botContent : FetchResult → List JSString
  | .resolved ⟨true, .ok body⟩ => paragraphs body
  | _ => [errorText]

/-- A whole call of `handleSearch` with nothing else happening while the
request is in flight. -/
def handleSearch (r : FetchResult) (s : State) : Except String Unit × State :=
  handleSearchResume r (handleSearchStart s).1

/-! ## Event handlers and rendering -/

/-- The `onChange` handler of the text field, applied to `e.target.value`. -/
def onChange (value : JSString) (s : State) : State := setSearchQuery value s

/-- The `disabled` property of the button: `!searchQuery.trim() || isLoading`. -/
def disabled (s : State) : Bool := !truthy (trim s.searchQuery) || s.isLoading

/-- What a paragraph of a bot bubble is rendered as: a `<ul><li>` with one
item, or the bare text. -/
inductive Rendered where
  | bullet (item : JSString)
  | plain (text : JSString)
  deriving DecidableEq, Repr

/-- The body of the `message.text.map` callback:
`p.startsWith('-') || p.startsWith('*') ? <ul><li>{p.substring(1).trim()}</li></ul> : p`. -/
def renderParagraph (p : JSString) : Rendered :=
  if startsWith p '-' || startsWith p '*' then Rendered.bullet (trim (substring1 p))
  else Rendered.plain p

/-- The children of a bot bubble: `message.text.map(...)`. -/
def renderBot (text : List JSString) : List Rendered := text.map renderParagraph

/-! ## The component with its outstanding requests -/

/-- The component state together with the requests that have been issued
and have not settled yet. -/
structure World where
  ui : State
  outstanding : List Request
  deriving DecidableEq, Repr

/-- The freshly mounted component. -/
def World.init : World := { ui := State.init, outstanding := [] }

/-- What can happen to the component: the text field changes, the search
button is clicked, an outstanding request settles. -/
inductive Event where
  | change (value : JSString)
  | click
  | settle (r : FetchResult)

/-- One event.  A click is delivered only while the button is not
disabled; a settlement needs an outstanding request (the continuation of
`handleSearch` does not depend on which request it was). -/
def step (w : World) : Event → Option World
  | .change value => some { w with ui := onChange value w.ui }
  | .click =>
    if disabled w.ui then none
    else
      let (s, req) := handleSearchStart w.ui
      some { ui := s, outstanding := w.outstanding ++ [req] }
  | .settle r =>
    match w.outstanding with
    | [] => none
    | _ :: rest => some { ui := (handleSearchResume r w.ui).2, outstanding := rest }

/-- A sequence of events, from left to right. -/
def run (w : World) : List Event → Option World
  | [] => some w
  | e :: es => (step w e).bind (fun w1 => run w1 es)

/-- Any operation of the component on its state, with no guard at all:
the handlers as functions that can be called at any time. -/
inductive Op where
  | change (value : JSString)
  | submitStart
  | submitEnd (r : FetchResult)

/-- The effect of an operation on the state. -/
def applyOp (s : State) : Op → State
  | .change value => onChange value s
  | .submitStart => (handleSearchStart s).1
  | .submitEnd r => (handleSearchResume r s).2

/-- The paragraph sequence as the specification words it: the body split
on the newline character (the library function `List.splitOn`), keeping in
order the segments that are not empty after trimming. -/
def specParagraphs (body : JSString) : List JSString :=
  (body.splitOn '\n').filter (fun seg => decide (trim seg ≠ []))

/-- The draft edits made while a request is in flight, applied in order. -/
def applyEdits (edits : List JSString) (s : State) : State :=
  edits.foldl (fun st value => onChange value st) s

/-- A short session: type `q`, click the button. -/
def sampleEvents : List Event := [Event.change "q".toList, Event.click]

/-- The component after `sampleEvents`: the user message is shown, the
flag is up and the request is outstanding. -/
def sampleWorld : World :=
  { ui := { searchQuery := "q".toList, chat := [Message.user "q".toList], isLoading := true },
    outstanding := [{ url := "https://tsearch-c7q4.onrender.com/tsearch/search",
                      method := "POST",
                      contentType := "application/json",
                      search_query := "q".toList }] }

/-- The component after typing `q` only. -/
def typedWorld : World :=
  { ui := { searchQuery := "q".toList, chat := [], isLoading := false }, outstanding := [] }

/-- The shape kept by the component along the supported path: the message
at an even position is a user message and the message at an odd position
is a bot message; with the flag down no request is outstanding and the
number of messages is even, with the flag up one request is outstanding
and the number of messages is odd. -/
def Shaped (w : World) : Prop :=
  (∀ (i : Nat) (m : Message), w.ui.chat[i]? = some m → (m.isUser = true ↔ i % 2 = 0)) ∧
  (w.ui.isLoading = false → w.outstanding = [] ∧ w.ui.chat.length % 2 = 0) ∧
  (w.ui.isLoading = true → w.outstanding.length = 1 ∧ w.ui.chat.length % 2 = 1)

/-! ## Facts about the string primitives -/

theorem split_ne_nil (sep : Char) (s : JSString) : split sep s ≠ [] := by
  cases s with
  | nil => simp [split]
  | cons c cs =>
    unfold split
    split_ifs
    · simp
    · split <;> simp

theorem split_cons (sep c : Char) (cs : JSString) :
    split sep (c :: cs) =
      if c = sep then [] :: split sep cs else (split sep cs).modifyHead (List.cons c) := by
  rw [split]
  split_ifs
  · rfl
  · split
    · rename_i h; exact absurd h (split_ne_nil sep cs)
    · rename_i h; rw [h]; rfl

theorem split_eq_splitOn (sep : Char) (s : JSString) : split sep s = s.splitOn sep := by
  induction s with
  | nil => simp [split, List.splitOn]
  | cons c cs ih =>
    rw [split_cons, List.splitOn, List.splitOnP_cons, ← List.splitOn, ← ih]
    by_cases h : c = sep <;> simp [h]

theorem intercalate_split (sep : Char) (s : JSString) :
    [sep].intercalate (split sep s) = s := by
  rw [split_eq_splitOn]; exact List.intercalate_splitOn s sep

theorem not_mem_of_mem_split (sep : Char) (s seg : JSString) (h : seg ∈ split sep s) :
    sep ∉ seg := by
  induction s generalizing seg with
  | nil => simp [split] at h; simp [h]
  | cons c cs ih =>
    rw [split_cons] at h
    by_cases hc : c = sep
    · simp only [hc, if_true, List.mem_cons] at h
      rcases h with h | h
      · simp [h]
      · exact ih seg h
    · simp only [hc, if_false] at h
      cases hs : split sep cs with
      | nil => exact absurd hs (split_ne_nil sep cs)
      | cons seg0 rest =>
        rw [hs] at h
        simp only [List.modifyHead_cons, List.mem_cons] at h
        rcases h with h | h
        · have h0 : sep ∉ seg0 := ih seg0 (by simp [hs])
          subst h
          simp only [List.mem_cons, not_or]
          exact ⟨fun e => hc e.symm, h0⟩
        · exact ih seg (by simp [hs, h])

theorem dropWhile_reverse_eq_nil (p : Char → Bool) (l : JSString)
    (h : (l.dropWhile p).reverse.dropWhile p = []) : l.dropWhile p = [] := by
  by_contra hne
  have h1 : ∀ x ∈ (l.dropWhile p).reverse, p x = true := List.dropWhile_eq_nil_iff.mp h
  have h2 := List.head_dropWhile_not p l hne
  have h3 := h1 ((l.dropWhile p).head hne) (by simp)
  simp [h3] at h2

theorem trim_eq_nil_iff (s : JSString) : trim s = [] ↔ ∀ c ∈ s, isTrimChar c = true := by
  unfold trim
  rw [List.reverse_eq_nil_iff]
  constructor
  · intro h
    exact List.dropWhile_eq_nil_iff.mp (dropWhile_reverse_eq_nil _ _ h)
  · intro h
    have : s.dropWhile isTrimChar = [] := List.dropWhile_eq_nil_iff.mpr h
    simp [this]

theorem mem_paragraphs (body p : JSString) :
    p ∈ paragraphs body ↔ p ∈ split '\n' body ∧ trim p ≠ [] := by
  simp [paragraphs]

theorem paragraphs_eq_nil_iff (body : JSString) :
    paragraphs body = [] ↔ ∀ seg ∈ split '\n' body, trim seg = [] := by
  simp [paragraphs, List.filter_eq_nil_iff]

/-! ## Facts about `handleSearch` -/

theorem resume_fst (r : FetchResult) (s : State) : (handleSearchResume r s).1 = .ok () := by
  unfold handleSearchResume tryCatchFinally tryBlock catchBlock finallyBlock
  rcases r with e | ⟨ok, t⟩
  · rfl
  · cases ok <;> cases t <;> rfl

theorem resume_ok (body : JSString) (s : State) :
    (handleSearchResume (.resolved ⟨true, .ok body⟩) s).2 =
      { searchQuery := [], chat := s.chat ++ [Message.bot (paragraphs body)],
        isLoading := false } := rfl

theorem resume_rejected (reason : String) (s : State) :
    (handleSearchResume (.rejected reason) s).2 =
      { searchQuery := [], chat := s.chat ++ [Message.bot [errorText]],
        isLoading := false } := rfl

theorem resume_not_ok (t : Except String JSString) (s : State) :
    (handleSearchResume (.resolved ⟨false, t⟩) s).2 =
      { searchQuery := [], chat := s.chat ++ [Message.bot [errorText]],
        isLoading := false } := rfl

theorem resume_text_error (ok : Bool) (reason : String) (s : State) :
    (handleSearchResume (.resolved ⟨ok, .error reason⟩) s).2 =
      { searchQuery := [], chat := s.chat ++ [Message.bot [errorText]],
        isLoading := false } := by
  cases ok <;> rfl

theorem resume_snd (r : FetchResult) (s : State) :
    (handleSearchResume r s).2 =
      { searchQuery := [], chat := s.chat ++ [Message.bot (botContent r)],
        isLoading := false } := by
  rcases r with e | ⟨ok, t⟩
  · rfl
  · cases ok <;> cases t <;> rfl

theorem paragraphs_eq_spec (body : JSString) : paragraphs body = specParagraphs body := by
  unfold paragraphs specParagraphs
  rw [split_eq_splitOn]
  congr 1
  funext seg
  by_cases h : trim seg = [] <;> simp [h]

theorem applyEdits_chat (edits : List JSString) (s : State) :
    (applyEdits edits s).chat = s.chat ∧ (applyEdits edits s).isLoading = s.isLoading := by
  unfold applyEdits
  induction edits generalizing s with
  | nil => exact ⟨rfl, rfl⟩
  | cons v vs ih => exact ih (onChange v s)

theorem getElem?_append_singleton (l : List Message) (x m : Message) (i : Nat)
    (h : (l ++ [x])[i]? = some m) : l[i]? = some m ∨ (i = l.length ∧ m = x) := by
  rcases Nat.lt_trichotomy i l.length with hlt | heq | hgt
  · left
    rwa [List.getElem?_append_left hlt] at h
  · right
    subst heq
    simp at h
    exact ⟨rfl, h.symm⟩
  · exfalso
    have : (l ++ [x]).length ≤ i := by simp; omega
    rw [List.getElem?_eq_none this] at h
    exact Option.noConfusion h

theorem shaped_init : Shaped World.init := by
  refine ⟨?_, ?_, ?_⟩
  · intro i m h
    simp [World.init, State.init] at h
  · intro _
    exact ⟨rfl, rfl⟩
  · intro h
    simp [World.init, State.init] at h

theorem shaped_step (w w1 : World) (e : Event) (hw : Shaped w) (h : step w e = some w1) :
    Shaped w1 := by
  obtain ⟨halt, hdown, hup⟩ := hw
  cases e with
  | change value =>
    simp only [step, Option.some.injEq] at h
    subst h
    exact ⟨halt, hdown, hup⟩
  | click =>
    simp only [step] at h
    split_ifs at h with hd
    simp only [Option.some.injEq] at h
    subst h
    have hl : w.ui.isLoading = false := by
      simp only [disabled, Bool.or_eq_true, not_or] at hd
      simpa using hd.2
    obtain ⟨hout, hlen⟩ := hdown hl
    refine ⟨?_, ?_, ?_⟩
    · intro i m hm
      simp only [handleSearchStart, setChat, setIsLoading] at hm
      rcases getElem?_append_singleton _ _ _ _ hm with h1 | ⟨h1, h2⟩
      · exact halt i m h1
      · subst h1 h2
        simp [Message.isUser, hlen]
    · intro hf
      simp [handleSearchStart, setChat, setIsLoading] at hf
    · intro _
      simp only [handleSearchStart, setChat, setIsLoading, hout, List.nil_append,
        List.length_singleton, List.length_append, true_and]
      omega
  | settle r =>
    simp only [step] at h
    cases hout : w.outstanding with
    | nil => rw [hout] at h; exact Option.noConfusion h
    | cons req rest =>
      rw [hout] at h
      simp only [Option.some.injEq] at h
      subst h
      have hl : w.ui.isLoading = true := by
        cases hb : w.ui.isLoading with
        | true => rfl
        | false => have := (hdown hb).1; rw [hout] at this; exact List.noConfusion this
      obtain ⟨hone, hlen⟩ := hup hl
      have hrest : rest = [] := by
        rw [hout] at hone
        simpa using hone
      refine ⟨?_, ?_, ?_⟩
      · intro i m hm
        simp only [resume_snd] at hm
        rcases getElem?_append_singleton _ _ _ _ hm with h1 | ⟨h1, h2⟩
        · exact halt i m h1
        · subst h1 h2
          simp [Message.isUser, hlen]
      · intro _
        simp only [resume_snd, List.length_append, List.length_singleton]
        exact ⟨hrest, by omega⟩
      · intro hf
        simp [resume_snd] at hf

theorem shaped_run (evs : List Event) (w w1 : World) (hw : Shaped w)
    (h : run w evs = some w1) : Shaped w1 := by
  induction evs generalizing w with
  | nil =>
    simp only [run, Option.some.injEq] at h
    exact h ▸ hw
  | cons e es ih =>
    simp only [run] at h
    cases hs : step w e with
    | none => rw [hs] at h; exact Option.noConfusion h
    | some w2 =>
      rw [hs] at h
      exact ih w2 (shaped_step w w2 e hw hs) h

theorem applyOp_chat (s : State) (op : Op) : ∃ tail, (applyOp s op).chat = s.chat ++ tail := by
  cases op with
  | change value => exact ⟨[], by simp [applyOp, onChange, setSearchQuery]⟩
  | submitStart => exact ⟨[Message.user s.searchQuery], rfl⟩
  | submitEnd r => exact ⟨[Message.bot (botContent r)], by simp [applyOp, resume_snd]⟩

theorem run_edits (edits : List JSString) (w : World) :
    run w (edits.map Event.change) = some { w with ui := applyEdits edits w.ui } := by
  induction edits generalizing w with
  | nil => rfl
  | cons v vs ih =>
    simp only [List.map_cons, run, step, Option.some_bind]
    rw [ih]
    rfl

theorem run_append (w : World) (es1 es2 : List Event) :
    run w (es1 ++ es2) = (run w es1).bind (fun w1 => run w1 es2) := by
  induction es1 generalizing w with
  | nil => simp [run]
  | cons e es ih =>
    simp only [List.cons_append, run]
    cases step w e with
    | none => rfl
    | some w2 => simp only [Option.some_bind]; exact ih w2

theorem foldl_applyOp_chat (ops : List Op) (s : State) :
    ∃ tail, (ops.foldl applyOp s).chat = s.chat ++ tail := by
  induction ops generalizing s with
  | nil => exact ⟨[], by simp⟩
  | cons op ops ih =>
    obtain ⟨t1, h1⟩ := applyOp_chat s op
    obtain ⟨t2, h2⟩ := ih (applyOp s op)
    exact ⟨t1 ++ t2, by simp only [List.foldl_cons, h2, h1, List.append_assoc]⟩

theorem run_submit (w : World) (edits : List JSString) (r : FetchResult)
    (hd : disabled w.ui = false) (hout : w.outstanding = []) :
    run w (Event.click :: (edits.map Event.change ++ [Event.settle r])) =
      some { ui := { searchQuery := [],
                     chat := w.ui.chat ++ [Message.user w.ui.searchQuery,
                                           Message.bot (botContent r)],
                     isLoading := false },
             outstanding := [] } := by
  simp only [run, step, hd, Bool.false_eq_true, if_false, Option.some_bind, run_append,
    run_edits, hout, List.nil_append, resume_snd]
  have h := (applyEdits_chat edits (handleSearchStart w.ui).1).1
  rw [h]
  simp [handleSearchStart, setChat, setIsLoading]

/-! ## The claims -/

/-- C1: for every body of an ok response and every state in which the
response arrives, the bot message appended by `handleSearch` carries the
body split on the newline character with the segments that are empty after
trimming removed, in order; the body `"a\n\nb\n  \nc"` gives `a`, `b`,
`c`; a body whose segments all consist of white space gives the empty
sequence. -/
theorem C1_success_paragraphs (body : JSString) (s : State) :
    (handleSearchResume (.resolved ⟨true, .ok body⟩) s).2.chat
        = s.chat ++ [Message.bot (specParagraphs body)] ∧
    (handleSearchResume (.resolved ⟨true, .ok "a\n\nb\n  \nc".toList⟩) s).2.chat
        = s.chat ++ [Message.bot ["a".toList, "b".toList, "c".toList]] ∧
    ((∀ seg ∈ body.splitOn '\n', ∀ c ∈ seg, isTrimChar c = true) →
      (handleSearchResume (.resolved ⟨true, .ok body⟩) s).2.chat
        = s.chat ++ [Message.bot []]) := by
  refine ⟨?_, ?_, ?_⟩
  · rw [resume_ok, paragraphs_eq_spec]
  · rw [resume_ok]
    have : paragraphs "a\n\nb\n  \nc".toList = ["a".toList, "b".toList, "c".toList] := by
      decide
    rw [this]
  · intro h
    rw [resume_ok]
    have : paragraphs body = [] := by
      rw [paragraphs_eq_nil_iff, split_eq_splitOn]
      intro seg hseg
      exact (trim_eq_nil_iff seg).mpr (h seg hseg)
    rw [this]

/-- Instance of C1 at the blank body `" \n\t"`. -/
theorem C1_success_paragraphs_witness :
    (handleSearchResume (.resolved ⟨true, .ok " \n\t".toList⟩) State.init).2.chat
      = State.init.chat ++ [Message.bot []] :=
  (C1_success_paragraphs " \n\t".toList State.init).2.2 (by decide)

/-- C2: for every failure of the request (a rejected `fetch`, a response
that is not ok whatever its body, a body that cannot be read) the bot
message appended carries exactly the one fixed error sentence, and
`handleSearch` completes normally for every settlement: nothing is thrown
out of it. -/
theorem C2_failure_message (s : State) :
    (∀ reason, (handleSearchResume (.rejected reason) s).2.chat
        = s.chat ++ [Message.bot ["Sorry, there was an error processing your request.".toList]]) ∧
    (∀ text, (handleSearchResume (.resolved ⟨false, text⟩) s).2.chat
        = s.chat ++ [Message.bot ["Sorry, there was an error processing your request.".toList]]) ∧
    (∀ ok reason, (handleSearchResume (.resolved ⟨ok, .error reason⟩) s).2.chat
        = s.chat ++ [Message.bot ["Sorry, there was an error processing your request.".toList]]) ∧
    (∀ r, (handleSearchResume r s).1 = .ok ()) ∧
    (∀ r, (handleSearch r s).1 = .ok ()) := by
  refine ⟨?_, ?_, ?_, ?_, ?_⟩
  · intro reason; rw [resume_rejected]; rfl
  · intro text; rw [resume_not_ok]; rfl
  · intro ok reason; rw [resume_text_error]; rfl
  · intro r; exact resume_fst r s
  · intro r; exact resume_fst r _

/-- C3: for every starting state, at the moment the request is issued the
message sequence is the prior sequence followed by one user message whose
text is the raw draft query, the loading flag is true, and the request
carries that same raw query; a whole call adds exactly one user message. -/
theorem C3_user_message_first (s : State) :
    (handleSearchStart s).1.chat = s.chat ++ [Message.user s.searchQuery] ∧
    (handleSearchStart s).1.isLoading = true ∧
    (handleSearchStart s).1.searchQuery = s.searchQuery ∧
    (handleSearchStart s).2.search_query = s.searchQuery ∧
    (∀ r, (handleSearch r s).2.chat
        = s.chat ++ [Message.user s.searchQuery, Message.bot (botContent r)]) ∧
    (∀ r, ((handleSearch r s).2.chat.filter Message.isUser).length
        = (s.chat.filter Message.isUser).length + 1) := by
  refine ⟨rfl, rfl, rfl, rfl, ?_, ?_⟩
  · intro r
    unfold handleSearch
    rw [resume_snd]
    simp [handleSearchStart, setChat, setIsLoading]
  · intro r
    unfold handleSearch
    rw [resume_snd]
    simp [handleSearchStart, setChat, setIsLoading, Message.isUser]

/-- C4: whatever the state in which the request settles and whatever the
settlement, after `handleSearch` has resolved the loading flag is false
and the draft query is empty; in particular after any draft edits made
while the request was in flight. -/
theorem C4_finally_resets (s : State) (edits : List JSString) (r : FetchResult) :
    (handleSearchResume r s).2.isLoading = false ∧
    (handleSearchResume r s).2.searchQuery = [] ∧
    (handleSearchResume r (applyEdits edits (handleSearchStart s).1)).2.isLoading = false ∧
    (handleSearchResume r (applyEdits edits (handleSearchStart s).1)).2.searchQuery = [] := by
  simp only [resume_snd, and_self]

/-- C5: the search button is disabled exactly when the draft query is
empty after trimming or the loading flag is true, and enabled exactly when
the trimmed draft is non-empty and the flag is false; the trimmed draft is
empty exactly when the draft consists of white space only. -/
theorem C5_disabled_iff (s : State) :
    (disabled s = true ↔ (trim s.searchQuery = [] ∨ s.isLoading = true)) ∧
    (disabled s = false ↔ (trim s.searchQuery ≠ [] ∧ s.isLoading = false)) ∧
    (trim s.searchQuery = [] ↔ ∀ c ∈ s.searchQuery, isTrimChar c = true) := by
  refine ⟨?_, ?_, trim_eq_nil_iff _⟩
  · simp [disabled, truthy]
  · simp [disabled, truthy]

/-- C7: a paragraph that starts with `-` or `*` renders as a one-item
bulleted list whose item is the rest of the paragraph, trimmed; any other
paragraph renders as a plain block with the paragraph itself; each
paragraph of a bot message is rendered from that paragraph alone. -/
theorem C7_paragraph_rendering (p : JSString) :
    (∀ rest, renderParagraph ('-' :: rest) = Rendered.bullet (trim rest)) ∧
    (∀ rest, renderParagraph ('*' :: rest) = Rendered.bullet (trim rest)) ∧
    ((∀ rest, p ≠ '-' :: rest) → (∀ rest, p ≠ '*' :: rest) →
      renderParagraph p = Rendered.plain p) ∧
    renderParagraph "- item one".toList = Rendered.bullet "item one".toList ∧
    renderParagraph "plain text".toList = Rendered.plain "plain text".toList ∧
    (∀ (text : List JSString) (i : Nat),
      (renderBot text)[i]? = (text[i]?).map renderParagraph) := by
  refine ⟨?_, ?_, ?_, by decide, by decide, ?_⟩
  · intro rest; simp [renderParagraph, startsWith, substring1]
  · intro rest; simp [renderParagraph, startsWith, substring1]
  · intro h1 h2
    cases p with
    | nil => simp [renderParagraph, startsWith]
    | cons c cs =>
      have e1 : c ≠ '-' := fun e => h1 cs (by rw [e])
      have e2 : c ≠ '*' := fun e => h2 cs (by rw [e])
      simp [renderParagraph, startsWith, e1, e2]
  · intro text i
    simp [renderBot]

/-- Instance of C7 at the paragraph `plain text`. -/
theorem C7_paragraph_rendering_witness :
    renderParagraph "plain text".toList = Rendered.plain "plain text".toList :=
  (C7_paragraph_rendering "plain text".toList).2.2.1
    (fun rest h =>
      absurd (show "plain text".toList.head? = some '-' from congrArg List.head? h) (by decide))
    (fun rest h =>
      absurd (show "plain text".toList.head? = some '*' from congrArg List.head? h) (by decide))

/-- C6: every operation of the component (a draft change, the start of a
submit, the completion of a submit with any settlement) leaves the message
sequence it found as an initial segment of the one it produces, and so
does every sequence of operations. -/
theorem C6_append_only (s : State) (op : Op) (ops : List Op) :
    s.chat <+: (applyOp s op).chat ∧ s.chat <+: (ops.foldl applyOp s).chat := by
  obtain ⟨t1, h1⟩ := applyOp_chat s op
  obtain ⟨t2, h2⟩ := foldl_applyOp_chat ops s
  exact ⟨⟨t1, h1.symm⟩, ⟨t2, h2.symm⟩⟩

/-- C8: in every state reached from the mounted component by draft
changes, clicks on the enabled button and settlements of outstanding
requests, at most one request is outstanding, and the loading flag is true
exactly when one is. -/
theorem C8_single_flight (evs : List Event) (w : World)
    (h : run World.init evs = some w) :
    w.outstanding.length ≤ 1 ∧ (w.ui.isLoading = true ↔ w.outstanding.length = 1) := by
  obtain ⟨_, hdown, hup⟩ := shaped_run evs World.init w shaped_init h
  cases hb : w.ui.isLoading with
  | false =>
    have := (hdown hb).1
    simp [this]
  | true =>
    have := (hup hb).1
    simp [this]

/-- Instance of C8 after typing `q` and clicking. -/
theorem C8_single_flight_witness :
    run World.init sampleEvents = some sampleWorld ∧
    sampleWorld.outstanding.length ≤ 1 ∧
    (sampleWorld.ui.isLoading = true ↔ sampleWorld.outstanding.length = 1) :=
  ⟨by decide, C8_single_flight sampleEvents sampleWorld (by decide)⟩

/-- C9 as stated fails: the ok body `" a"` is stored as the paragraph
`" a"`, which differs from its trimmed form. -/
theorem C9_counterexample :
    (handleSearchResume (.resolved ⟨true, .ok " a".toList⟩) State.init).2.chat
      = [Message.bot [" a".toList]] ∧
    trim " a".toList ≠ " a".toList := by
  decide

/-- C9 amended: every paragraph stored for an ok response is one of the
segments of the body between newline characters, kept as it is: it
contains no newline, it is not empty, and its trimmed form is not empty,
that is, it contains a character that is not white space. -/
theorem C9_paragraphs_untrimmed (body : JSString) (s : State) (ps : List JSString)
    (p : JSString)
    (h : (handleSearchResume (.resolved ⟨true, .ok body⟩) s).2.chat
      = s.chat ++ [Message.bot ps])
    (hp : p ∈ ps) :
    p ∈ split '\n' body ∧ ['\n'].intercalate (split '\n' body) = body ∧
    '\n' ∉ p ∧ p ≠ [] ∧ trim p ≠ [] ∧ ∃ c ∈ p, isTrimChar c = false := by
  rw [resume_ok] at h
  have hps : ps = paragraphs body := by
    have := List.append_cancel_left h
    simp only [List.cons.injEq, Message.bot.injEq, and_true] at this
    exact this.symm
  subst hps
  obtain ⟨hseg, htrim⟩ := (mem_paragraphs body p).mp hp
  refine ⟨hseg, intercalate_split _ _, not_mem_of_mem_split _ _ _ hseg, ?_, htrim, ?_⟩
  · intro e
    subst e
    exact htrim rfl
  · by_contra hall
    apply htrim
    rw [trim_eq_nil_iff]
    intro c hc
    by_contra hcf
    exact hall ⟨c, hc, by simpa using hcf⟩

/-- Instance of the amended C9 at the body `" a\n"`. -/
theorem C9_paragraphs_untrimmed_witness :
    " a".toList ∈ split '\n' " a\n".toList ∧
    ['\n'].intercalate (split '\n' " a\n".toList) = " a\n".toList ∧
    '\n' ∉ " a".toList ∧ " a".toList ≠ [] ∧ trim " a".toList ≠ [] ∧
    ∃ c ∈ " a".toList, isTrimChar c = false :=
  C9_paragraphs_untrimmed " a\n".toList State.init [" a".toList] " a".toList
    (by decide) (by decide)

/-- C10: in every state reached from the mounted component along the
supported path, the message at an even position is a user message and the
message at an odd position a bot message, the number of messages is even
while the flag is down and odd while it is up, and a click on the enabled
button followed by any draft edits and the settlement appends exactly the
user message and then one bot message, whose paragraph sequence is empty
when the body of an ok response is blank. -/
theorem C10_conversation_shape (evs : List Event) (w : World)
    (h : run World.init evs = some w) :
    (∀ (i : Nat) (m : Message), w.ui.chat[i]? = some m → (m.isUser = true ↔ i % 2 = 0)) ∧
    (w.ui.isLoading = false → w.ui.chat.length % 2 = 0) ∧
    (w.ui.isLoading = true → w.ui.chat.length % 2 = 1) ∧
    (∀ (edits : List JSString) (r : FetchResult), disabled w.ui = false →
      run w (Event.click :: (edits.map Event.change ++ [Event.settle r])) =
        some { ui := { searchQuery := [],
                       chat := w.ui.chat ++ [Message.user w.ui.searchQuery,
                                             Message.bot (botContent r)],
                       isLoading := false },
               outstanding := [] }) ∧
    (∀ body : JSString, (∀ seg ∈ split '\n' body, ∀ c ∈ seg, isTrimChar c = true) →
      botContent (.resolved ⟨true, .ok body⟩) = []) := by
  obtain ⟨halt, hdown, hup⟩ := shaped_run evs World.init w shaped_init h
  refine ⟨halt, fun hb => (hdown hb).2, fun hb => (hup hb).2, ?_, ?_⟩
  · intro edits r hd
    have hl : w.ui.isLoading = false := by
      simp only [disabled, Bool.or_eq_false_iff] at hd
      exact hd.2
    exact run_submit w edits r hd (hdown hl).1
  · intro body hblank
    show paragraphs body = []
    rw [paragraphs_eq_nil_iff]
    intro seg hseg
    exact (trim_eq_nil_iff seg).mpr (hblank seg hseg)

/-- Instance of C10 after typing `q`: the click, an edit in flight and a
blank ok body leave the user message followed by a bot message without
paragraphs. -/
theorem C10_conversation_shape_witness :
    run World.init [Event.change "q".toList] = some typedWorld ∧
    run typedWorld (Event.click :: ([" x".toList].map Event.change ++
        [Event.settle (.resolved ⟨true, .ok " \n".toList⟩)])) =
      some { ui := { searchQuery := [],
                     chat := [Message.user "q".toList, Message.bot []],
                     isLoading := false },
             outstanding := [] } :=
  ⟨by decide,
   (C10_conversation_shape [Event.change "q".toList] typedWorld (by decide)).2.2.2.1
     [" x".toList] (.resolved ⟨true, .ok " \n".toList⟩) (by decide)⟩

end GTSearch
